import Mathlib

/-!
Shallow embedding of the vault-autounseal-operator reconciliation core
(`src/vault_autounseal_operator/{security,vault_client,operator_v2,pod_watcher}.py`)
and proofs about it.

Machine/runtime boundaries are modelled as follows:
* Python strings are Lean `String`s; byte strings are `List Nat` (each < 256).
* CPython `base64.b64decode` is modelled by `pyB64DecodeStrict` (for
  `validate=True`: the input must fully match `[A-Za-z0-9+/]*={0,2}`) and
  `pyB64DecodeLenient` (for the default `validate=False`: characters outside
  the base64 alphabet and `=` are discarded before the padding check).  The
  underlying `binascii.a2b_base64` is modelled on its documented core: data
  is consumed in quads, with padding permitted only in the final quad; the
  legacy toleration of data *after* a padding sign is not modelled (nothing
  below depends on it).
* `bytes.decode("utf-8")` is modelled by `utf8Decode` (strict UTF-8:
  overlong forms, surrogates and code points above U+10FFFF are rejected).
* A call into the network (seal-status query, key submission) is modelled by
  an oracle value `CallRes`: `.ok` carries the JSON answer's `sealed` field,
  `.exn` models the call raising an exception.
-/

/-- One byte. -/
abbrev Byte := Nat

def padChar : Char := '='

def isB64Char (c : Char) : Bool :=
  (65 ≤ c.toNat && c.toNat ≤ 90) || (97 ≤ c.toNat && c.toNat ≤ 122) ||
  (48 ≤ c.toNat && c.toNat ≤ 57) || c.toNat = 43 || c.toNat = 47

/-- Value of a base64 alphabet character. -/
def b64Val (c : Char) : Nat :=
  if 65 ≤ c.toNat && c.toNat ≤ 90 then c.toNat - 65
  else if 97 ≤ c.toNat && c.toNat ≤ 122 then c.toNat - 71
  else if 48 ≤ c.toNat && c.toNat ≤ 57 then c.toNat + 4
  else if c.toNat = 43 then 62
  else 63

/-- Decode base64 quads; padding is allowed only in the final quad
(models the core of `binascii.a2b_base64` on already-filtered input). -/
def decodeB64Core : List Char → Option (List Byte)
  | [] => some []
  | [a, b, p1, p2] =>
    if p1 = padChar && p2 = padChar then
      if isB64Char a && isB64Char b then
        some [b64Val a * 4 + b64Val b / 16]
      else none
    else if p2 = padChar then
      if isB64Char a && isB64Char b && isB64Char p1 then
        some [b64Val a * 4 + b64Val b / 16,
              (b64Val b % 16) * 16 + b64Val p1 / 4]
      else none
    else
      if isB64Char a && isB64Char b && isB64Char p1 && isB64Char p2 then
        some [b64Val a * 4 + b64Val b / 16,
              (b64Val b % 16) * 16 + b64Val p1 / 4,
              (b64Val p1 % 4) * 64 + b64Val p2]
      else none
  | a :: b :: c :: d :: rest =>
    if isB64Char a && isB64Char b && isB64Char c && isB64Char d then
      match decodeB64Core rest with
      | some bs =>
        some ([b64Val a * 4 + b64Val b / 16,
               (b64Val b % 16) * 16 + b64Val c / 4,
               (b64Val c % 4) * 64 + b64Val d] ++ bs)
      | none => none
    else none
  | _ => none

/-- Models `base64.b64decode(s)` with the default `validate=False`:
non-alphabet, non-padding characters are discarded before decoding. -/
def pyB64DecodeLenient (s : String) : Option (List Byte) :=
  decodeB64Core (s.data.filter (fun c => isB64Char c || c = padChar))

/-- Models `base64.b64decode(s, validate=True)`: the whole input must match
`[A-Za-z0-9+/]*={0,2}`, then it is decoded. -/
def pyB64DecodeStrict (s : String) : Option (List Byte) :=
  let ds := s.data
  let padCount := (ds.reverse.takeWhile (fun c => c = padChar)).length
  if padCount ≤ 2 && (ds.take (ds.length - padCount)).all isB64Char then
    decodeB64Core ds
  else none

def utf8IsCont (b : Byte) : Bool := 128 ≤ b && b ≤ 191

def utf8FirstContLo (b : Byte) : Nat :=
  if b = 224 then 160 else if b = 240 then 144 else 128

def utf8FirstContHi (b : Byte) : Nat :=
  if b = 237 then 159 else if b = 244 then 143 else 191

/-- Strict UTF-8 decoding of a byte list into code points, modelling
`bytes.decode("utf-8")` (which raises on invalid input, here `none`). -/
def utf8Decode : List Byte → Option (List Nat)
  | [] => some []
  | b :: rest =>
    if b < 128 then
      match utf8Decode rest with
      | some cps => some (b :: cps)
      | none => none
    else if 194 ≤ b && b ≤ 223 then
      match rest with
      | c1 :: r =>
        if utf8IsCont c1 then
          match utf8Decode r with
          | some cps => some (((b - 192) * 64 + (c1 - 128)) :: cps)
          | none => none
        else none
      | [] => none
    else if 224 ≤ b && b ≤ 239 then
      match rest with
      | c1 :: c2 :: r =>
        if (utf8FirstContLo b ≤ c1 && c1 ≤ utf8FirstContHi b) && utf8IsCont c2 then
          match utf8Decode r with
          | some cps =>
            some (((b - 224) * 4096 + (c1 - 128) * 64 + (c2 - 128)) :: cps)
          | none => none
        else none
      | _ => none
    else if 240 ≤ b && b ≤ 244 then
      match rest with
      | c1 :: c2 :: c3 :: r =>
        if (utf8FirstContLo b ≤ c1 && c1 ≤ utf8FirstContHi b) &&
            utf8IsCont c2 && utf8IsCont c3 then
          match utf8Decode r with
          | some cps =>
            some (((b - 240) * 262144 + (c1 - 128) * 4096 +
                   (c2 - 128) * 64 + (c3 - 128)) :: cps)
          | none => none
        else none
      | _ => none
    else none

/-- Models the per-key decode inside `VaultClient.unseal`'s loop:
`base64.b64decode(key, validate=True).decode("utf-8")`. -/
def decodeKeyStrict (k : String) : Option (List Nat) :=
  match pyB64DecodeStrict k with
  | some bs => utf8Decode bs
  | none => none

/-! ## SecurityValidator.validate_unseal_keys -/

def msgNoUnsealKeys : String := "Unseal keys cannot be empty"
def msgTooManyKeys : String := "Too many unseal keys (max: 10)"

def msgKeyEmpty (i : Nat) : String :=
  "Unseal key " ++ toString (i + 1) ++ " cannot be empty"
def msgKeyTooLong (i : Nat) : String :=
  "Unseal key " ++ toString (i + 1) ++ " exceeds maximum length"
def msgKeyNotB64 (i : Nat) : String :=
  "Unseal key " ++ toString (i + 1) ++ " is not valid base64"

/-- The per-key loop of `SecurityValidator.validate_unseal_keys`.  A key that
decodes (leniently) to the empty byte string raises a `ValueError` inside the
`try`, which the code's own `except` re-wraps into the "not valid base64"
error, so both failure shapes collapse to `msgKeyNotB64`. -/
def validateUnsealKeysLoop : List String → Nat → Except String (List String)
  | [], _ => .ok []
  | k :: rest, i =>
    if k = "" then .error (msgKeyEmpty i)
    else if 1024 < k.length then .error (msgKeyTooLong i)
    else
      match pyB64DecodeLenient k with
      | none => .error (msgKeyNotB64 i)
      | some bs =>
        if bs.length = 0 then .error (msgKeyNotB64 i)
        else
          match validateUnsealKeysLoop rest (i + 1) with
          | .ok vrest => .ok (k :: vrest)
          | .error e => .error e

/-- Embeds `SecurityValidator.validate_unseal_keys`. -/
def validate_unseal_keys (keys : List String) : Except String (List String) :=
  if keys = [] then .error msgNoUnsealKeys
  else if 10 < keys.length then .error msgTooManyKeys
  else validateUnsealKeysLoop keys 0


/-! ## URL parsing and `SecurityValidator.validate_url`

`urllib.parse.urlparse` is modelled on the subset the validator inspects:
scheme (lower-cased, recognised only when the text before the first colon is
a letter followed by letters/digits/`+`/`-`/`.`), network location (only when
the text after the scheme begins with `//`, extending to the next `/`, `?` or
`#`), path (up to `?` or `#`), and the discarded query/fragment.  IPv6
bracket syntax and special characters inside the authority are not modelled;
the `hostname`-based localhost warning has no semantic effect and is
omitted. -/

def isSchemeChar (c : Char) : Bool :=
  c.isAlpha || c.isDigit || c.toNat = 43 || c.toNat = 45 || c.toNat = 46

def splitAtFirst (stop : Char → Bool) (cs : List Char) : List Char × List Char :=
  (cs.takeWhile (fun c => !stop c), cs.dropWhile (fun c => !stop c))

structure ParsedUrl where
  scheme : String
  netloc : String
  path : String
deriving Repr, DecidableEq

def isColon (c : Char) : Bool := c.toNat = 58

def isNetlocEnd (c : Char) : Bool := c.toNat = 47 || c.toNat = 63 || c.toNat = 35

def isPathEnd (c : Char) : Bool := c.toNat = 63 || c.toNat = 35

def leadsWith : List Char → List Char → Bool
  | [], _ => true
  | _ :: _, [] => false
  | a :: as, b :: bs => a = b && leadsWith as bs

/-- Model of `urllib.parse.urlparse` (see module comment above). -/
def pyUrlparse (url : String) : ParsedUrl :=
  let cs := url.data
  let (pre, post) := splitAtFirst isColon cs
  let (scheme, rest) :=
    match post with
    | _ :: afterColon =>
      if (!pre.isEmpty) && (pre.headD ' ').isAlpha && pre.all isSchemeChar then
        ((pre.map Char.toLower), afterColon)
      else ([], cs)
    | [] => ([], cs)
  let (netloc, rest2) :=
    if leadsWith [('/'), ('/')] rest then
      splitAtFirst isNetlocEnd (rest.drop 2)
    else ([], rest)
  let path := (splitAtFirst isPathEnd rest2).1
  { scheme := ⟨scheme⟩, netloc := ⟨netloc⟩, path := ⟨path⟩ }

def msgUrlEmpty : String := "URL cannot be empty"
def msgUrlTooLong : String := "URL exceeds maximum length of 2048"
def msgUrlNoScheme : String := "Invalid URL format: URL must include scheme (http/https)"
def msgUrlBadScheme : String := "Invalid URL format: URL scheme must be one of: https, http"
def msgUrlNoHost : String := "Invalid URL format: URL must include hostname"

/-- Embeds `SecurityValidator.validate_url`.  The `ValueError`s raised inside its
`try` are re-wrapped by its own `except` into "Invalid URL format: ...". -/
def validate_url (url : String) : Except String String :=
  if url = "" then .error msgUrlEmpty
  else if 2048 < url.length then .error msgUrlTooLong
  else
    let p := pyUrlparse url
    if p.scheme = "" then .error msgUrlNoScheme
    else if p.scheme ≠ ("http") && p.scheme ≠ ("https") then .error msgUrlBadScheme
    else if p.netloc = "" then .error msgUrlNoHost
    else
      let base := p.scheme ++ ("://") ++ p.netloc
      if p.path ≠ "" && p.path ≠ ("/") then .ok (base ++ p.path)
      else .ok base


/-! ## Name validators -/

/-- Models `str.lower()` restricted to ASCII case folding (every consumer below
feeds the result into an ASCII-only pattern, so the wider Unicode folding of
CPython is irrelevant here). -/
def pyLower (s : String) : String := ⟨s.data.map Char.toLower⟩

def isDnsBodyChar (c : Char) : Bool :=
  (97 ≤ c.toNat && c.toNat ≤ 122) || (48 ≤ c.toNat && c.toNat ≤ 57) || c.toNat = 45

def isDnsEdgeChar (c : Char) : Bool :=
  (97 ≤ c.toNat && c.toNat ≤ 122) || (48 ≤ c.toNat && c.toNat ≤ 57)

/-- Models `DNS_LABEL_REGEX.match`, i.e. `^[a-z0-9]([-a-z0-9]*[a-z0-9])?$`. -/
def dnsLabelOk (s : String) : Bool :=
  match s.data with
  | [] => false
  | [c] => isDnsEdgeChar c
  | c :: rest => isDnsEdgeChar c && rest.dropLast.all isDnsBodyChar &&
      isDnsEdgeChar (rest.getLastD ' ')

inductive NameField where
  | secretName
  | namespaceName
deriving Repr, DecidableEq

def nameFieldMax : NameField → Nat
  | .secretName => 253
  | .namespaceName => 63

def msgNameEmpty (f : NameField) : String :=
  (match f with | .secretName => "secret name" | .namespaceName => "namespace") ++
    (" cannot be empty")

def msgNameTooLong (f : NameField) : String :=
  (match f with | .secretName => "secret name" | .namespaceName => "namespace") ++
    (" exceeds maximum length")

def msgNameNotDns (f : NameField) : String :=
  (match f with | .secretName => "secret name" | .namespaceName => "namespace") ++
    (" must be a valid DNS label")

/-- Embeds `SecurityValidator.validate_kubernetes_name` (the two call shapes used by
`validate_spec` are "secret name" and "namespace"). -/
def validate_kubernetes_name (name : String) (f : NameField) : Except String String :=
  if name = "" then .error (msgNameEmpty f)
  else if nameFieldMax f < name.length then .error (msgNameTooLong f)
  else if !dnsLabelOk (pyLower name) then .error (msgNameNotDns f)
  else .ok (pyLower name)

def isSecretKeyChar (c : Char) : Bool :=
  c.isAlpha || c.isDigit || c.toNat = 46 || c.toNat = 95 || c.toNat = 45

def msgSecretKeyEmpty : String := "Secret key cannot be empty"
def msgSecretKeyTooLong : String := "Secret key exceeds maximum length of 253"
def msgSecretKeyBadChar : String := "Secret key contains invalid characters"

/-- Embeds `SecurityValidator.validate_secret_key` (`^[a-zA-Z0-9._-]+$`, max 253). -/
def validate_secret_key (key : String) : Except String String :=
  if key = "" then .error msgSecretKeyEmpty
  else if 253 < key.length then .error msgSecretKeyTooLong
  else if !key.data.all isSecretKeyChar then .error msgSecretKeyBadChar
  else .ok key

def msgThresholdLow : String := "Threshold must be at least 1"
def msgThresholdHigh : String := "Threshold cannot exceed number of keys"
def msgThresholdMax : String := "Threshold exceeds maximum (10)"

/-- Embeds `SecurityValidator.validate_threshold`. -/
def validate_threshold (threshold : Int) (numKeys : Int) : Except String Int :=
  if threshold < 1 then .error msgThresholdLow
  else if numKeys < threshold then .error msgThresholdHigh
  else if 10 < threshold then .error msgThresholdMax
  else .ok threshold


/-! ## `SecurityValidator.sanitize_log_data`

Python values reaching the sanitizer are modelled by `LogData` (mappings and
sequences are mutual inductives so that structural recursion is direct);
`str`/`num`/`boolean`/`nul` stand for the non-container leaves. -/

mutual

inductive LogData where
  | str (s : String)
  | num (n : Int)
  | boolean (b : Bool)
  | nul
  | arr (xs : LogList)
  | dict (es : LogDict)

inductive LogList where
  | nil
  | cons (hd : LogData) (tl : LogList)

inductive LogDict where
  | nil
  | cons (k : String) (v : LogData) (tl : LogDict)

end

def redactedMarker : String := "[REDACTED]"

def sensitiveWords : List String := ["key", "secret", "token", "password"]

/-- Substring containment on character lists. -/
def listContains (needle hay : List Char) : Bool :=
  match hay with
  | [] => needle.isEmpty
  | _ :: t => leadsWith needle hay || listContains needle t

/-- Models `any(sensitive in key.lower() for sensitive in [...])`. -/
def isSensitiveKey (k : String) : Bool :=
  sensitiveWords.any (fun w => listContains w.data (pyLower k).data)

mutual

/-- Embeds `SecurityValidator.sanitize_log_data`. -/
def sanitize_log_data : LogData → LogData
  | .dict es => .dict (sanitizeDictEntries es)
  | .arr xs => .arr (sanitizeListItems xs)
  | d => d

def sanitizeDictEntries : LogDict → LogDict
  | .nil => .nil
  | .cons k v tl =>
    if isSensitiveKey k then
      .cons k (.str redactedMarker) (sanitizeDictEntries tl)
    else
      .cons k (sanitize_log_data v) (sanitizeDictEntries tl)

def sanitizeListItems : LogList → LogList
  | .nil => .nil
  | .cons hd tl => .cons (sanitize_log_data hd) (sanitizeListItems tl)

end

def isLeafData : LogData → Bool
  | .arr _ => false
  | .dict _ => false
  | _ => true

/-! The specification sentence for the sanitizer, written as a relation: a
mapping entry whose key case-insensitively contains a sensitive word has its
value replaced by the fixed redaction marker, at every nesting depth,
recursing through nested mappings and sequences, while every other leaf
passes through unchanged. -/

mutual

inductive SanitizesTo : LogData → LogData → Prop where
  | leaf (d : LogData) (h : isLeafData d = true) : SanitizesTo d d
  | arr {xs ys : LogList} (h : SanitizesToList xs ys) :
      SanitizesTo (.arr xs) (.arr ys)
  | dict {es fs : LogDict} (h : SanitizesToDict es fs) :
      SanitizesTo (.dict es) (.dict fs)

inductive SanitizesToList : LogList → LogList → Prop where
  | nil : SanitizesToList .nil .nil
  | cons {d d' : LogData} {tl tl' : LogList} (h : SanitizesTo d d')
      (ht : SanitizesToList tl tl') :
      SanitizesToList (.cons d tl) (.cons d' tl')

inductive SanitizesToDict : LogDict → LogDict → Prop where
  | nil : SanitizesToDict .nil .nil
  | consSensitive {k : String} {v : LogData} {tl tl' : LogDict}
      (h : isSensitiveKey k = true) (ht : SanitizesToDict tl tl') :
      SanitizesToDict (.cons k v tl) (.cons k (.str redactedMarker) tl')
  | consPlain {k : String} {v v' : LogData} {tl tl' : LogDict}
      (h : isSensitiveKey k = false) (hv : SanitizesTo v v')
      (ht : SanitizesToDict tl tl') :
      SanitizesToDict (.cons k v tl) (.cons k v' tl')

end



/-! ## `VaultClient.unseal`

The remote Vault endpoint is an oracle (`UnsealEnv`): `q0` answers the first
`get_seal_status` call, `subs i` answers the `submit_unseal_key` call made
for the key at loop index `i` (consulted only if that call happens), and
`qf` answers the final `get_seal_status` call.  `CallRes.exn` models the
underlying HTTP call raising an exception.  Of the returned seal-status JSON
only the `sealed` field is inspected by the code, so a status is a
`SealStatus`. -/

structure SealStatus where
  sealed : Bool
deriving Repr, DecidableEq

inductive CallRes (α : Type) where
  | ok (a : α)
  | exn
deriving Repr, DecidableEq

structure UnsealEnv where
  q0 : CallRes SealStatus
  subs : Nat → CallRes SealStatus
  qf : CallRes SealStatus

def msgNoKeysProvided : String := "No unseal keys provided"
def msgThresholdExceeds : String := "Threshold exceeds number of available keys"
def msgStatusQueryRaised : String := "seal status query raised"

def msgBadKeyDecode (i : Nat) : String :=
  "Invalid base64 encoding in key " ++ toString (i + 1)
def msgSubmitRaised (i : Nat) : String :=
  "Failed to submit unseal key " ++ toString (i + 1)

/-- Observable outcome of one `VaultClient.unseal` call: the returned value
or propagated exception, together with the final values of the function's
own loop variables (`keys_submitted`, `last_error`) and the number of
`submit_unseal_key` invocations actually made. -/
structure UnsealTrace where
  result : Except String SealStatus
  attempts : Nat
  keysSubmitted : Nat
  lastError : Option String
deriving Repr

/-- The `for i, key in enumerate(validated_keys[:threshold])` loop.  A decode
failure or a raising submission is caught by the per-key `except`, records
the error and continues; a submission answered with `sealed = false` returns
immediately. -/
def unsealLoop (env : UnsealEnv) : List String → Nat → Nat → Nat →
    Option String → Option SealStatus × Nat × Nat × Option String
  | [], _, attempts, ksub, lastErr => (none, attempts, ksub, lastErr)
  | k :: rest, i, attempts, ksub, lastErr =>
    match decodeKeyStrict k with
    | none => unsealLoop env rest (i + 1) attempts ksub (some (msgBadKeyDecode i))
    | some _ =>
      match env.subs i with
      | .exn => unsealLoop env rest (i + 1) (attempts + 1) ksub (some (msgSubmitRaised i))
      | .ok st =>
        if st.sealed then
          unsealLoop env rest (i + 1) (attempts + 1) (ksub + 1) lastErr
        else (some st, attempts + 1, ksub + 1, lastErr)

/-- Embeds `VaultClient.unseal(keys, threshold)`.  The function's outer
`try/except` only logs a sanitized message and re-raises, so propagation is
unchanged. -/
def unsealRun (keys : List String) (threshold : Int) (env : UnsealEnv) : UnsealTrace :=
  if keys = [] then ⟨.error msgNoKeysProvided, 0, 0, none⟩
  else if threshold < 1 then ⟨.error msgThresholdLow, 0, 0, none⟩
  else if (keys.length : Int) < threshold then ⟨.error msgThresholdExceeds, 0, 0, none⟩
  else
    match validate_unseal_keys keys with
    | .error e => ⟨.error e, 0, 0, none⟩
    | .ok vkeys =>
      match env.q0 with
      | .exn => ⟨.error msgStatusQueryRaised, 0, 0, none⟩
      | .ok st0 =>
        if !st0.sealed then ⟨.ok st0, 0, 0, none⟩
        else
          match unsealLoop env (vkeys.take threshold.toNat) 0 0 0 none with
          | (some st, a, ks, le) => ⟨.ok st, a, ks, le⟩
          | (none, a, ks, le) =>
            match env.qf with
            | .exn => ⟨.error msgStatusQueryRaised, a, ks, le⟩
            | .ok stF => ⟨.ok stF, a, ks, le⟩

def sampleEnvSealed : UnsealEnv :=
  { q0 := .ok ⟨true⟩
    subs := fun i => if i = 1 then .ok ⟨false⟩ else .ok ⟨true⟩
    qf := .ok ⟨true⟩ }


/-! ## Association lists (Python `dict` with string keys)

Insertion-ordered dictionaries: assignment replaces in place or appends,
deletion removes. -/

def lookupA {α : Type} (k : String) : List (String × α) → Option α
  | [] => none
  | (k', v) :: t => if k' = k then some v else lookupA k t

def insertA {α : Type} (k : String) (v : α) : List (String × α) → List (String × α)
  | [] => [(k, v)]
  | (k', v') :: t => if k' = k then (k, v) :: t else (k', v') :: insertA k v t

def removeA {α : Type} (k : String) : List (String × α) → List (String × α)
  | [] => []
  | (k', v') :: t => if k' = k then t else (k', v') :: removeA k t

/-! ## Spec dictionaries

The raw `spec` handed to the operator is an untyped nested mapping; the
fields the code reads are modelled as `Option`-valued entries (`none` =
key absent; a falsy-empty `secretRef`/`podSelector` sub-dict, which the code
treats like an absent one, is also modelled as `none`). -/

structure SecretRefSpec where
  name : Option String
  key : Option String
  nspace : Option String
deriving Repr, DecidableEq

structure UnsealKeysSpec where
  secret : Option (List String)
  secretRef : Option SecretRefSpec
deriving Repr, DecidableEq

structure PodSelSpec where
  matchLabels : Option (List (String × String))
deriving Repr, DecidableEq

structure SpecDict where
  url : Option String
  unsealKeys : Option UnsealKeysSpec
  nspace : Option String
  threshold : Option Int
  haEnabled : Option Bool
  tlsSkipVerify : Option Bool
  reconcileInterval : Option String
  podSelector : Option PodSelSpec
deriving Repr, DecidableEq

/-- The Secret-read API: `(name, namespace) ↦ data`, where `data` maps data
keys to base64 text; `none` models `read_namespaced_secret` raising an
`ApiException`. -/
def SecretStore := String → String → Option (List (String × String))

/-! ## Secret payload parsing for `get_unseal_keys`

`json.loads` is modelled on the shapes this code can meet: an array of JSON
strings parses to that list; the scalar literals `true`/`false`/`null`, an
integer, or a single JSON string parse but are not lists (the code then
raises "must contain a JSON array"); anything else is a `JSONDecodeError`
and falls back to newline splitting.  `\uXXXX` escapes are not modelled. -/

def isWsChar (c : Char) : Bool :=
  c.toNat = 32 || c.toNat = 9 || c.toNat = 10 || c.toNat = 13

def quoteChar : Char := '"'
def backslashChar : Char := '\\'
def lbrackChar : Char := '['
def rbrackChar : Char := ']'
def commaChar : Char := ','
def newlineChar : Char := '\n'

def skipWsL (cs : List Char) : List Char := cs.dropWhile isWsChar

def pyStrip (s : String) : String :=
  ⟨((s.data.dropWhile isWsChar).reverse.dropWhile isWsChar).reverse⟩

def jsonEscapeChar (c : Char) : Option Char :=
  if c = quoteChar then some quoteChar
  else if c = backslashChar then some backslashChar
  else if c.toNat = 47 then some c
  else if c.toNat = 110 then some (Char.ofNat 10)
  else if c.toNat = 116 then some (Char.ofNat 9)
  else if c.toNat = 114 then some (Char.ofNat 13)
  else if c.toNat = 98 then some (Char.ofNat 8)
  else if c.toNat = 102 then some (Char.ofNat 12)
  else none

def parseJsonStringBody : List Char → Option (List Char × List Char)
  | [] => none
  | c :: rest =>
    if c = quoteChar then some ([], rest)
    else if c = backslashChar then
      match rest with
      | [] => none
      | e :: rest2 =>
        match jsonEscapeChar e with
        | none => none
        | some ec =>
          match parseJsonStringBody rest2 with
          | some (s, r) => some (ec :: s, r)
          | none => none
    else
      match parseJsonStringBody rest with
      | some (s, r) => some (c :: s, r)
      | none => none

def parseJsonItems : Nat → List Char → Option (List String × List Char)
  | 0, _ => none
  | fuel + 1, cs =>
    match skipWsL cs with
    | [] => none
    | c :: rest =>
      if c = quoteChar then
        match parseJsonStringBody rest with
        | none => none
        | some (sChars, rest2) =>
          match skipWsL rest2 with
          | [] => none
          | c2 :: rest3 =>
            if c2 = commaChar then
              match parseJsonItems fuel rest3 with
              | some (ss, r) => some ((⟨sChars⟩ : String) :: ss, r)
              | none => none
            else if c2 = rbrackChar then some ([(⟨sChars⟩ : String)], rest3)
            else none
      else none

/-- Parse a whole JSON array of strings (leading `[` already stripped off by
the caller is not assumed: `t` is the full trimmed payload). -/
def tryParseJsonStringList (t : String) : Option (List String) :=
  match t.data with
  | [] => none
  | c :: rest =>
    if c = lbrackChar then
      match skipWsL rest with
      | c2 :: rest2 =>
        if c2 = rbrackChar then
          if skipWsL rest2 = [] then some [] else none
        else
          match parseJsonItems (t.length + 1) (skipWsL rest) with
          | some (ss, r) => if skipWsL r = [] then some ss else none
          | none => none
      | [] => none
    else none

/-- Is the trimmed payload a JSON value that parses but is not a list?  (The
code then raises "Secret data must contain a JSON array".) -/
def isJsonNonListScalar (t : String) : Bool :=
  t = ("true") || t = ("false") || t = ("null") ||
  (t ≠ "" && t.data.all Char.isDigit) ||
  (match t.data with
   | c :: rest =>
     c = quoteChar &&
       (match parseJsonStringBody rest with
        | some (_, r) => skipWsL r = []
        | none => false)
   | [] => false)

def splitOnChar (c : Char) : List Char → List (List Char)
  | [] => [[]]
  | a :: rest =>
    let r := splitOnChar c rest
    if a = c then [] :: r
    else
      match r with
      | h :: t => (a :: h) :: t
      | [] => [[a]]

def msgNotJsonArray : String := "Secret data must contain a JSON array"
def msgNoValidKeysInSecret : String := "No valid keys found in secret"

/-- The payload interpretation of `get_unseal_keys`: JSON first, newline
fallback on `JSONDecodeError`. -/
def parseSecretPayload (payload : String) : Except String (List String) :=
  let t := pyStrip payload
  let fallback : Except String (List String) :=
    let ks := ((splitOnChar newlineChar payload.data).map
        (fun l => pyStrip (⟨l⟩ : String))).filter (fun s => s ≠ "")
    if ks = [] then .error msgNoValidKeysInSecret else .ok ks
  match tryParseJsonStringList t with
  | some ss => .ok ss
  | none => if isJsonNonListScalar t then .error msgNotJsonArray else fallback

/-! ## `VaultOperatorV2.get_unseal_keys` -/

def msgSecretRefShape : String := "unsealKeys.secretRef must be an object with name field"
def msgFailedDecodeSecret : String := "Failed to decode secret data"
def msgKeyNotFoundInSecret : String := "Key not found in secret"
def msgFailedReadSecret : String := "Failed to read secret"
def msgNoKeysEither : String := "No unseal keys provided in either secret or secretRef"

def utf8DecodeToString (bs : List Byte) : Option String :=
  match utf8Decode bs with
  | some cps => some ⟨cps.map Char.ofNat⟩
  | none => none

def get_unseal_keys (store : SecretStore) (spec : SpecDict) (ns : String) :
    Except String (List String) :=
  let trySecretRef : Except String (List String) :=
    match spec.unsealKeys with
    | none => .error msgNoKeysEither
    | some uk =>
      match uk.secretRef with
      | none => .error msgNoKeysEither
      | some ref =>
        match ref.name with
        | none => .error msgSecretRefShape
        | some secretName =>
          let sns := ref.nspace.getD ns
          let dataKey := ref.key.getD ("unseal-keys")
          match store secretName sns with
          | none => .error msgFailedReadSecret
          | some data =>
            match lookupA dataKey data with
            | none => .error msgKeyNotFoundInSecret
            | some b64v =>
              match pyB64DecodeLenient b64v with
              | none => .error msgFailedDecodeSecret
              | some bs =>
                match utf8DecodeToString bs with
                | none => .error msgFailedDecodeSecret
                | some payload => parseSecretPayload payload
  match spec.unsealKeys with
  | none => .error msgNoKeysEither
  | some uk =>
    match uk.secret with
    | some keys => if keys.isEmpty then trySecretRef else .ok keys
    | none => trySecretRef

/-! ## `VaultOperatorV2` registry: setup and check-and-unseal

Python object identity of freshly constructed `VaultClient`/`PodWatcher`
instances is modelled by tagging each construction with a fresh `oid` drawn
from the state's counter, so "the stored object was replaced" is the
observable fact `oid` changed. -/

structure VaultClientObj where
  oid : Nat
  url : String
  tlsSkipVerify : Bool
deriving Repr, DecidableEq

structure PodWatcherObj where
  oid : Nat
  nspace : String
  podSelector : Option PodSelSpec
  unsealKeys : List String
  threshold : Int
  running : Bool
deriving Repr, DecidableEq

structure RegState where
  clients : List (String × VaultClientObj)
  watchers : List (String × PodWatcherObj)
  nextId : Nat
deriving Repr, DecidableEq

def emptyRegState : RegState := ⟨[], [], 0⟩

def clientKey (ns name : String) : String := ns ++ ("/") ++ name

def msgSpecUrlKeyError : String := "KeyError: url"

/-- Embeds `VaultOperatorV2.setup_vault_client`.  Constructing the `VaultClient`
runs `SecurityValidator.validate_url` (which can raise); with `haEnabled`
the unseal keys are resolved and a `PodWatcher` is constructed and started
(`start` flips its running flag; the streaming task itself is outside this
model).  Note the client is stored before HA setup, so a key-resolution
failure leaves the fresh client registered and propagates. -/
def setup_vault_client (store : SecretStore) (spec : SpecDict) (ns name : String)
    (st : RegState) : RegState × Except String Unit :=
  match spec.url with
  | none => (st, .error msgSpecUrlKeyError)
  | some url =>
    let tls := spec.tlsSkipVerify.getD false
    let key := clientKey ns name
    match validate_url url with
    | .error e => (st, .error e)
    | .ok cleanUrl =>
      let st1 : RegState :=
        ⟨insertA key ⟨st.nextId, cleanUrl, tls⟩ st.clients, st.watchers, st.nextId + 1⟩
      if spec.haEnabled.getD false then
        match get_unseal_keys store spec ns with
        | .error e => (st1, .error e)
        | .ok keys =>
          let w : PodWatcherObj :=
            ⟨st1.nextId, spec.nspace.getD ns, spec.podSelector, keys,
             spec.threshold.getD 3, true⟩
          (⟨st1.clients, insertA key w st1.watchers, st1.nextId + 1⟩, .ok ())
      else (st1, .ok ())

structure VaultStatusRec where
  sealed : Bool
  lastUnsealed : Option String
  lastChecked : String
  error : Option String
deriving Repr, DecidableEq

/-- Oracle for one `check_and_unseal_vault` call: the answer to its
`is_sealed` query plus the oracle for the nested `unseal` call. -/
structure VaultEnv where
  isSealedRes : CallRes Bool
  unsealEnv : UnsealEnv

def msgClientMissing : String := "KeyError: client"

/-- Embeds `VaultOperatorV2.check_and_unseal_vault`.  Here `now` stands for the
`datetime.now(timezone.utc).isoformat()` values taken while building the
status (the call is instantaneous in the model).  The `try` block starts
*after* the client-existence check: a failing `setup_vault_client` is not
caught and its exception propagates (`Except.error`). -/
def check_and_unseal_vault (store : SecretStore) (venv : VaultEnv) (now : String)
    (spec : SpecDict) (ns name : String) (st : RegState) :
    RegState × Except String VaultStatusRec :=
  let key := clientKey ns name
  let (st1, setupRes) :=
    if (lookupA key st.clients).isSome then (st, Except.ok ())
    else setup_vault_client store spec ns name st
  match setupRes with
  | .error e => (st1, .error e)
  | .ok _ =>
    match lookupA key st1.clients with
    | none => (st1, .error msgClientMissing)
    | some _client =>
      match venv.isSealedRes with
      | .exn => (st1, .ok ⟨true, none, now, some msgStatusQueryRaised⟩)
      | .ok isS =>
        if isS then
          match get_unseal_keys store spec ns with
          | .error e => (st1, .ok ⟨true, none, now, some e⟩)
          | .ok keys =>
            let tr := unsealRun keys (spec.threshold.getD 3) venv.unsealEnv
            match tr.result with
            | .error e => (st1, .ok ⟨true, none, now, some e⟩)
            | .ok stt =>
              (st1, .ok ⟨stt.sealed, if stt.sealed then none else some now, now, none⟩)
        else (st1, .ok ⟨false, some now, now, none⟩)

/-! ## `PodWatcher` event handling -/

structure PodObj where
  name : String
  uid : String
  labels : List (String × String)
  phase : String
  podIP : Option String
  containerStatuses : List Bool
deriving Repr, DecidableEq

/-- Embeds `PodWatcher._matches_selector`: conjunction of exact label matches over
`pod_selector.get("matchLabels", {})`. -/
def matchesSelector (sel : Option PodSelSpec) (labels : List (String × String)) : Bool :=
  match sel with
  | none => true
  | some ps =>
    (ps.matchLabels.getD []).all (fun kv => decide (lookupA kv.1 labels = some kv.2))

/-- Embeds `PodWatcher._is_vault_pod_ready_and_sealed`.  Here `containerStatuses` holds
each container's `ready` flag; any exception (including a raising
`is_sealed` call, modelled by `.exn`) is caught and yields `false`. -/
def isReadyAndSealed (pod : PodObj) (sealedRes : CallRes Bool) : Bool :=
  if pod.phase ≠ ("Running") then false
  else
    match pod.podIP with
    | none => false
    | some ip =>
      if ip = "" then false
      else if !pod.containerStatuses.all (fun r => r) then false
      else
        match sealedRes with
        | .exn => false
        | .ok b => b

structure MonPod where
  name : String
  nspace : String
  lastUnsealAttempt : Nat
deriving Repr, DecidableEq

/-- Embeds `PodWatcher._handle_pod_event` acting on `monitored_pods` (keyed by pod
UID).  The returned flag records whether `_attempt_unseal` was invoked
(`_attempt_unseal` swallows every exception and does not touch the
monitored set, so the flag is its whole observable effect here). -/
def handle_pod_event (sel : Option PodSelSpec) (watcherNs : String)
    (sealedRes : CallRes Bool) (eventType : String) (pod : PodObj)
    (monitored : List (String × MonPod)) : List (String × MonPod) × Bool :=
  if !matchesSelector sel pod.labels then (monitored, false)
  else if eventType = ("DELETED") then (removeA pod.uid monitored, false)
  else if eventType = ("ADDED") || eventType = ("MODIFIED") then
    if isReadyAndSealed pod sealedRes then
      (insertA pod.uid ⟨pod.name, watcherNs, 0⟩ monitored, true)
    else if (lookupA pod.uid monitored).isSome then (removeA pod.uid monitored, false)
    else (monitored, false)
  else (monitored, false)

/-! ## `SecurityValidator.validate_spec` -/

inductive ValidatedKeySource where
  | inline (keys : List String)
  | secretRef (name : String) (key : String) (nspace : Option String)
deriving Repr, DecidableEq

structure ValidatedSpec where
  url : String
  unsealKeys : ValidatedKeySource
  nspace : String
  threshold : Int
  haEnabled : Bool
  tlsSkipVerify : Bool
  reconcileInterval : String
  podSelector : Option PodSelSpec
deriving Repr, DecidableEq

/-- Models the pattern `^\d+[smh]$`. -/
def intervalOk (s : String) : Bool :=
  let ds := s.data
  let lastN := (ds.getLastD ' ').toNat
  2 ≤ ds.length && ds.dropLast.all Char.isDigit &&
    (lastN = 115 || lastN = 109 || lastN = 104)

def msgUrlRequired : String := "URL is required"
def msgUnsealKeysRequired : String := "unsealKeys is required"
def msgBothKeySources : String := "Cannot specify both secret and secretRef in unsealKeys"
def msgNeitherKeySource : String := "Must specify either secret or secretRef in unsealKeys"
def msgSecretRefNameRequired : String := "secretRef.name is required"
def msgBadInterval : String := "reconcileInterval must be in format like 30s, 5m, 1h"
def msgSelectorTooLong : String := "podSelector label key or value too long"

/-- Embeds `SecurityValidator.validate_spec`.  Note this function consults no
secret store at all: when the key source is a `secretRef` it sets
`num_keys = MAX_UNSEAL_KEYS` (10) and validates the threshold against that
assumption. -/
def validate_spec (spec : SpecDict) : Except String ValidatedSpec :=
  match spec.url with
  | none => .error msgUrlRequired
  | some url =>
    match validate_url url with
    | .error e => .error e
    | .ok vurl =>
      match spec.unsealKeys with
      | none => .error msgUnsealKeysRequired
      | some uk =>
        if uk.secret.isSome && uk.secretRef.isSome then .error msgBothKeySources
        else if uk.secret.isNone && uk.secretRef.isNone then .error msgNeitherKeySource
        else
          let src : Except String (ValidatedKeySource × Int) :=
            match uk.secret with
            | some ks =>
              match validate_unseal_keys ks with
              | .error e => .error e
              | .ok vks => .ok (.inline vks, (ks.length : Int))
            | none =>
              match uk.secretRef with
              | none => .error msgNeitherKeySource
              | some ref =>
                match ref.name with
                | none => .error msgSecretRefNameRequired
                | some nm =>
                  match validate_kubernetes_name nm .secretName with
                  | .error e => .error e
                  | .ok vnm =>
                    match validate_secret_key (ref.key.getD ("unseal-keys")) with
                    | .error e => .error e
                    | .ok vkey =>
                      match ref.nspace with
                      | none => .ok (.secretRef vnm vkey none, 10)
                      | some rns =>
                        match validate_kubernetes_name rns .namespaceName with
                        | .error e => .error e
                        | .ok vrns => .ok (.secretRef vnm vkey (some vrns), 10)
          match src with
          | .error e => .error e
          | .ok (vsrc, numKeys) =>
            let nsRes : Except String String :=
              match spec.nspace with
              | none => .ok ("default")
              | some n => validate_kubernetes_name n .namespaceName
            match nsRes with
            | .error e => .error e
            | .ok vns =>
              let thrRes : Except String Int :=
                match spec.threshold with
                | none => .ok (min 3 numKeys)
                | some t => validate_threshold t numKeys
              match thrRes with
              | .error e => .error e
              | .ok vt =>
                let interval := spec.reconcileInterval.getD ("30s")
                if !intervalOk interval then .error msgBadInterval
                else
                  let psRes : Except String (Option PodSelSpec) :=
                    match spec.podSelector with
                    | none => .ok none
                    | some ps =>
                      match ps.matchLabels with
                      | none => .ok none
                      | some mls =>
                        if mls.all (fun kv => kv.1.length ≤ 253 && kv.2.length ≤ 63) then
                          .ok (some ps)
                        else .error msgSelectorTooLong
                  match psRes with
                  | .error e => .error e
                  | .ok vps =>
                    .ok ⟨vurl, vsrc, vns, vt, spec.haEnabled.getD false,
                         spec.tlsSkipVerify.getD false, interval, vps⟩

def sampleSecretRefSpec : SpecDict :=
  { url := some ("https://vault.example.com:8200")
    unsealKeys := some { secret := none,
                         secretRef := some { name := some ("vault-keys"),
                                             key := none, nspace := none } }
    nspace := none
    threshold := some 7
    haEnabled := none
    tlsSkipVerify := none
    reconcileInterval := none
    podSelector := none }

/-- Index of the last failing (`.exn`) submission among loop indices
`j, j+1, ..., j+n-1`, if any — the submission whose error
`VaultClient.unseal` retains in `last_error` when no decode fails. -/
def lastFailIdx (env : UnsealEnv) : Nat → Nat → Option Nat
  | _, 0 => none
  | j, n + 1 =>
    match lastFailIdx env (j + 1) n with
    | some i => some i
    | none => if env.subs j = CallRes.exn then some j else none

/-! ## Concrete instances used in witnesses and counterexamples -/

/-- A key containing `!`, a character outside the base64 alphabet. -/
def bangKey : String := "QUJD!"

def alwaysExnSubs : Nat → CallRes SealStatus := fun _ => CallRes.exn

def envAlreadyUnsealed : UnsealEnv := ⟨.ok ⟨false⟩, alwaysExnSubs, .exn⟩

/-- Sealed instance whose very first key submission reaches quorum. -/
def envEarlyUnseal : UnsealEnv :=
  ⟨.ok ⟨true⟩, fun i => if i = 0 then .ok ⟨false⟩ else .exn, .exn⟩

/-- Sealed instance where submission 0 raises, later ones are accepted but
leave it sealed, and the final status query reports unsealed. -/
def envSubmitFails : UnsealEnv :=
  ⟨.ok ⟨true⟩, fun i => if i = 0 then .exn else .ok ⟨true⟩, .ok ⟨false⟩⟩

/-- A secret store in which every read raises. -/
def dummyStore : SecretStore := fun _ _ => none

def nsLit : String := "default"
def nameLit : String := "vault-a"
def nowLit : String := "2026-01-01T00:00:00+00:00"

/-- Valid spec: inline key, HA enabled. -/
def specInlineHA : SpecDict :=
  { url := some ("http://vault:8200")
    unsealKeys := some { secret := some [("QUJD")], secretRef := none }
    nspace := none
    threshold := some 1
    haEnabled := some true
    tlsSkipVerify := none
    reconcileInterval := none
    podSelector := none }

/-- A raw spec with no `url` entry at all (as the timer handler can pass,
since it never validates). -/
def specNoUrl : SpecDict :=
  { url := none, unsealKeys := none, nspace := none, threshold := none,
    haEnabled := none, tlsSkipVerify := none, reconcileInterval := none,
    podSelector := none }

/-- Vault oracle answering `is_sealed` with `False`. -/
def venvSealedOkFalse : VaultEnv := ⟨.ok false, envAlreadyUnsealed⟩

/-- Registry already holding a client for `default/vault-a`. -/
def regWithClient : RegState :=
  ⟨[(clientKey nsLit nameLit, ⟨0, ("http://vault:8200"), false⟩)], [], 1⟩

/-- Registry after one `setup_vault_client` call for `specInlineHA`. -/
def c1State1 : RegState :=
  (setup_vault_client dummyStore specInlineHA nsLit nameLit emptyRegState).1

/-- Registry after a second, identical `setup_vault_client` call. -/
def c1State2 : RegState :=
  (setup_vault_client dummyStore specInlineHA nsLit nameLit c1State1).1

/-- A Running pod with an IP and an empty `containerStatuses` list. -/
def podNoContainers : PodObj :=
  { name := ("vault-0"), uid := ("uid-0"), labels := [(("app"), ("vault"))],
    phase := ("Running"), podIP := some ("10.0.0.5"), containerStatuses := [] }

/-! # Theorems -/

/-! ## Sanity checks of the embedding on concrete inputs -/

example : pyB64DecodeLenient ("QUJD") = some [65, 66, 67] := by decide
example : pyB64DecodeLenient ("QUJD!") = some [65, 66, 67] := by decide
example : pyB64DecodeStrict ("QUJD!") = none := by decide
example : pyB64DecodeStrict ("QQ==") = some [65] := by decide
example : decodeKeyStrict ("QUJD") = some [65, 66, 67] := by decide
example : validate_unseal_keys [("QUJD")] = .ok [("QUJD")] := rfl

example : validate_url ("http://vault:8200") = .ok ("http://vault:8200") := rfl
example : validate_url ("https://v.example.com/a/b?q=1#f") = .ok ("https://v.example.com/a/b") := rfl
example : validate_url ("ftp://host") = .error msgUrlBadScheme := rfl
example : validate_url ("") = .error msgUrlEmpty := rfl
example : validate_url ("vault:8200") = .error msgUrlBadScheme := rfl
example : validate_url ("//host/path") = .error msgUrlNoScheme := rfl

example : validate_kubernetes_name ("My-Secret") .secretName = .ok ("my-secret") := rfl
example : validate_kubernetes_name ("-bad") .namespaceName = .error (msgNameNotDns .namespaceName) := rfl
example : validate_secret_key ("unseal-keys") = .ok ("unseal-keys") := rfl
example : validate_threshold 3 10 = .ok 3 := rfl
example : validate_threshold 11 20 = .error msgThresholdMax := rfl

mutual

theorem sanitizesTo_of_sanitize : ∀ d : LogData, SanitizesTo d (sanitize_log_data d)
  | .str s => .leaf (.str s) rfl
  | .num n => .leaf (.num n) rfl
  | .boolean b => .leaf (.boolean b) rfl
  | .nul => .leaf .nul rfl
  | .arr xs => .arr (sanitizesToList_of_sanitize xs)
  | .dict es => .dict (sanitizesToDict_of_sanitize es)

theorem sanitizesToList_of_sanitize :
    ∀ xs : LogList, SanitizesToList xs (sanitizeListItems xs)
  | .nil => .nil
  | .cons hd tl => .cons (sanitizesTo_of_sanitize hd) (sanitizesToList_of_sanitize tl)

theorem sanitizesToDict_of_sanitize :
    ∀ es : LogDict, SanitizesToDict es (sanitizeDictEntries es)
  | .nil => .nil
  | .cons k v tl => by
    by_cases hk : isSensitiveKey k = true
    · simpa [sanitizeDictEntries, hk] using
        SanitizesToDict.consSensitive hk (sanitizesToDict_of_sanitize tl)
    · have hk' : isSensitiveKey k = false := by
        cases h : isSensitiveKey k
        · rfl
        · exact absurd h hk
      simpa [sanitizeDictEntries, hk'] using
        SanitizesToDict.consPlain hk' (sanitizesTo_of_sanitize v)
          (sanitizesToDict_of_sanitize tl)

end

example : isSensitiveKey ("ApiToken") = true := by decide
example : isSensitiveKey ("url") = false := by decide

example :
    (unsealRun [("QUJD"), ("QUJE"), ("QUJF")] 3 sampleEnvSealed).result = .ok ⟨false⟩ := rfl
example : (unsealRun [("QUJD"), ("QUJE"), ("QUJF")] 3 sampleEnvSealed).attempts = 2 := rfl
example :
    (unsealRun [("QUJD")] 1 { sampleEnvSealed with q0 := .ok ⟨false⟩ }).attempts = 0 := rfl

example :
    validate_spec sampleSecretRefSpec =
      .ok ⟨("https://vault.example.com:8200"),
           .secretRef ("vault-keys") ("unseal-keys") none,
           ("default"), 7, false, false, ("30s"), none⟩ := rfl
example :
    validate_spec { sampleSecretRefSpec with threshold := none } =
      .ok ⟨("https://vault.example.com:8200"),
           .secretRef ("vault-keys") ("unseal-keys") none,
           ("default"), 3, false, false, ("30s"), none⟩ := rfl


/-! ## Properties of `validate_unseal_keys` -/

theorem validateUnsealKeysLoop_ok (ks : List String) :
    ∀ (i : Nat) (vs : List String),
    validateUnsealKeysLoop ks i = .ok vs →
    vs = ks ∧ ∀ k ∈ ks, k ≠ "" ∧ k.length ≤ 1024 ∧
      ∃ bs, pyB64DecodeLenient k = some bs ∧ bs ≠ [] := by
  induction ks with
  | nil =>
    intro i vs h
    simp only [validateUnsealKeysLoop] at h
    injection h with h'
    exact ⟨h'.symm, by simp⟩
  | cons k rest ih =>
    intro i vs h
    simp only [validateUnsealKeysLoop] at h
    by_cases hk0 : k = ""
    · rw [if_pos hk0] at h; exact absurd h (by simp)
    rw [if_neg hk0] at h
    by_cases hlen : 1024 < k.length
    · rw [if_pos hlen] at h; exact absurd h (by simp)
    rw [if_neg hlen] at h
    cases hdec : pyB64DecodeLenient k with
    | none => rw [hdec] at h; exact absurd h (by simp)
    | some bs =>
      simp only [hdec] at h
      by_cases hbs : bs.length = 0
      · rw [if_pos hbs] at h; exact absurd h (by simp)
      rw [if_neg hbs] at h
      cases hrec : validateUnsealKeysLoop rest (i + 1) with
      | error e => rw [hrec] at h; exact absurd h (by simp)
      | ok vrest =>
        rw [hrec] at h
        injection h with h'
        obtain ⟨hveq, hall⟩ := ih (i + 1) vrest hrec
        subst hveq
        refine ⟨h'.symm, ?_⟩
        intro k' hk'
        rcases List.mem_cons.mp hk' with hk' | hk'
        · subst hk'
          exact ⟨hk0, by omega, bs, hdec,
            fun hnil => hbs (by simp [hnil])⟩
        · exact hall k' hk'

theorem validate_unseal_keys_ok_eq (keys vs : List String)
    (h : validate_unseal_keys keys = .ok vs) : vs = keys := by
  unfold validate_unseal_keys at h
  by_cases h0 : keys = []
  · rw [if_pos h0] at h; exact absurd h (by simp)
  rw [if_neg h0] at h
  by_cases h10 : 10 < keys.length
  · rw [if_pos h10] at h; exact absurd h (by simp)
  rw [if_neg h10] at h
  exact (validateUnsealKeysLoop_ok keys 0 vs h).1

/-- C6 (counterexample): the validator accepts the key `"QUJD!"` even though
it contains `!`, a character outside the base64 alphabet, because
`base64.b64decode` is called without `validate=True`; the strict decode of
the same key fails.  This refutes "any key containing characters outside the
base64 alphabet ... is rejected with a validation error". -/
theorem validate_unseal_keys_accepts_nonalphabet :
    validate_unseal_keys [bangKey] = .ok [bangKey] ∧
    bangKey.data.any (fun c => !(isB64Char c || c = padChar)) = true ∧
    pyB64DecodeStrict bangKey = none :=
  ⟨rfl, by decide, by decide⟩

/-- C6 (amended): every key list accepted by
`SecurityValidator.validate_unseal_keys` is returned unchanged, and each of
its keys is non-empty, at most 1024 characters, and decodes under CPython's
*lenient* base64 decode (non-alphabet characters discarded before the
padding check) to a non-empty payload.  Strict base64 membership is *not*
enforced here; it is enforced only later, at point of use, by the
`validate=True` decode inside `VaultClient.unseal`. -/
theorem validate_unseal_keys_accepted_keys_lenient (keys vs : List String)
    (h : validate_unseal_keys keys = .ok vs) :
    vs = keys ∧ ∀ k ∈ keys, k ≠ "" ∧ k.length ≤ 1024 ∧
      ∃ bs, pyB64DecodeLenient k = some bs ∧ bs ≠ [] := by
  unfold validate_unseal_keys at h
  by_cases h0 : keys = []
  · rw [if_pos h0] at h; exact absurd h (by simp)
  rw [if_neg h0] at h
  by_cases h10 : 10 < keys.length
  · rw [if_pos h10] at h; exact absurd h (by simp)
  rw [if_neg h10] at h
  exact validateUnsealKeysLoop_ok keys 0 vs h

theorem validate_unseal_keys_accepted_keys_lenient_witness :
    [bangKey] = [bangKey] ∧ ∀ k ∈ [bangKey], k ≠ "" ∧ k.length ≤ 1024 ∧
      ∃ bs, pyB64DecodeLenient k = some bs ∧ bs ≠ [] :=
  validate_unseal_keys_accepted_keys_lenient [bangKey] [bangKey] rfl

/-! ## C5: idempotent no-op on an already-unsealed instance -/

/-- C5: if the protocol's preconditions and key re-validation pass and the
*initial* seal-status query reports the instance unsealed, `unseal` returns
that very status and performs zero key submissions. -/
theorem unseal_already_unsealed_no_submissions
    (keys : List String) (threshold : Int) (env : UnsealEnv) (st0 : SealStatus)
    (hne : keys ≠ []) (h1 : 1 ≤ threshold) (h2 : threshold ≤ (keys.length : Int))
    (hval : ∃ vk, validate_unseal_keys keys = Except.ok vk)
    (hq0 : env.q0 = .ok st0) (hs : st0.sealed = false) :
    (unsealRun keys threshold env).result = .ok st0 ∧
      (unsealRun keys threshold env).attempts = 0 := by
  obtain ⟨vk, hvk⟩ := hval
  have ht1 : ¬(threshold < 1) := by omega
  have ht2 : ¬((keys.length : Int) < threshold) := by omega
  constructor <;> simp [unsealRun, hne, ht1, ht2, hvk, hq0, hs]

theorem unseal_already_unsealed_no_submissions_witness :
    (unsealRun [("QUJD")] 1 envAlreadyUnsealed).result = .ok ⟨false⟩ ∧
      (unsealRun [("QUJD")] 1 envAlreadyUnsealed).attempts = 0 :=
  unseal_already_unsealed_no_submissions [("QUJD")] 1 envAlreadyUnsealed ⟨false⟩
    (by decide) (by decide) (by decide) ⟨[("QUJD")], rfl⟩ rfl rfl

/-! ## C4: quorum short-circuit -/

theorem unsealLoop_early_unseal (env : UnsealEnv) :
    ∀ (k : Nat) (L : List String) (j a ks : Nat) (le : Option String),
    k + 1 ≤ L.length →
    (∀ s ∈ L, decodeKeyStrict s ≠ none) →
    (∀ i, i < k → env.subs (j + i) = .ok ⟨true⟩) →
    env.subs (j + k) = .ok ⟨false⟩ →
    unsealLoop env L j a ks le = (some ⟨false⟩, a + (k + 1), ks + (k + 1), le) := by
  intro k
  induction k with
  | zero =>
    intro L j a ks le hlen hdec hprev hlast
    cases L with
    | nil => exact absurd hlen (by simp)
    | cons hd tl =>
      cases hdd : decodeKeyStrict hd with
      | none => exact absurd hdd (hdec hd (by simp))
      | some bs =>
        have hlast' : env.subs j = .ok ⟨false⟩ := hlast
        simp [unsealLoop, hdd, hlast']
  | succ n ih =>
    intro L j a ks le hlen hdec hprev hlast
    cases L with
    | nil => exact absurd hlen (by simp)
    | cons hd tl =>
      cases hdd : decodeKeyStrict hd with
      | none => exact absurd hdd (hdec hd (by simp))
      | some bs =>
        have hsub0 : env.subs j = .ok ⟨true⟩ := by
          simpa using hprev 0 (Nat.succ_pos n)
        have hrec := ih tl (j + 1) (a + 1) (ks + 1) le
          (by simpa using Nat.lt_of_succ_lt_succ (Nat.lt_of_lt_of_le (Nat.lt_succ_self _) hlen))
          (fun s hs => hdec s (by simp [hs]))
          (fun i hi => by
            have := hprev (i + 1) (by omega)
            simpa [Nat.add_assoc, Nat.add_comm 1 i] using this)
          (by
            have := hlast
            rw [show j + (n + 1) = (j + 1) + n by omega] at this
            exact this)
        simp only [unsealLoop, hdd, hsub0]
        rw [hrec, show a + 1 + (n + 1) = a + (n + 1 + 1) by omega,
          show ks + 1 + (n + 1) = ks + (n + 1 + 1) by omega]
        simp

/-- C4: with the instance initially sealed and the remote accepting the
first `K - 1` submissions without reaching quorum, if the status returned
for the `K`-th submitted key (`K < threshold`) reports unsealed, `unseal`
stops immediately, returns that status, and has made exactly `K`
submissions. -/
theorem unseal_quorum_short_circuit
    (keys : List String) (threshold : Int) (env : UnsealEnv) (K : Nat)
    (hne : keys ≠ []) (h1 : 1 ≤ threshold) (h2 : threshold ≤ (keys.length : Int))
    (hval : ∃ vk, validate_unseal_keys keys = Except.ok vk)
    (hq0 : env.q0 = .ok ⟨true⟩)
    (hK1 : 1 ≤ K) (hKT : (K : Int) < threshold)
    (hdec : ∀ s ∈ keys, decodeKeyStrict s ≠ none)
    (hprev : ∀ i, i + 1 < K → env.subs i = .ok ⟨true⟩)
    (hlast : env.subs (K - 1) = .ok ⟨false⟩) :
    (unsealRun keys threshold env).result = .ok ⟨false⟩ ∧
      (unsealRun keys threshold env).attempts = K ∧
      (unsealRun keys threshold env).keysSubmitted = K := by
  obtain ⟨vk, hvk⟩ := hval
  have hvkeq := validate_unseal_keys_ok_eq keys vk hvk
  rw [hvkeq] at hvk
  have ht1 : ¬(threshold < 1) := by omega
  have ht2 : ¬((keys.length : Int) < threshold) := by omega
  have hlenK : (K - 1) + 1 ≤ (keys.take threshold.toNat).length := by
    rw [List.length_take]
    omega
  have hloop := unsealLoop_early_unseal env (K - 1) (keys.take threshold.toNat)
    0 0 0 none hlenK
    (fun s hs => hdec s (List.take_subset _ _ hs))
    (fun i hi => by simpa using hprev i (by omega))
    (by simpa using hlast)
  have hK : (K - 1) + 1 = K := by omega
  rw [hK] at hloop
  refine ⟨?_, ?_, ?_⟩ <;>
    simp [unsealRun, hne, ht1, ht2, hvk, hq0, hloop]

theorem unseal_quorum_short_circuit_witness :
    (unsealRun [("QUJD"), ("QUJE")] 2 envEarlyUnseal).result = .ok ⟨false⟩ ∧
      (unsealRun [("QUJD"), ("QUJE")] 2 envEarlyUnseal).attempts = 1 ∧
      (unsealRun [("QUJD"), ("QUJE")] 2 envEarlyUnseal).keysSubmitted = 1 :=
  unseal_quorum_short_circuit [("QUJD"), ("QUJE")] 2 envEarlyUnseal 1
    (by decide) (by decide) (by decide) ⟨[("QUJD"), ("QUJE")], rfl⟩ rfl
    (by decide) (by decide) (by decide)
    (fun i hi => absurd hi (by omega)) rfl

/-! ## C3: partial-failure tolerance of the submission loop -/

theorem unsealLoop_no_early (env : UnsealEnv)
    (hno : ∀ i st, env.subs i = .ok st → st.sealed = true) :
    ∀ (L : List String) (j a ks : Nat) (le : Option String),
    (∀ s ∈ L, decodeKeyStrict s ≠ none) →
    ∃ ks', unsealLoop env L j a ks le =
      (none, a + L.length, ks',
       match lastFailIdx env j L.length with
       | some i => some (msgSubmitRaised i)
       | none => le) := by
  intro L
  induction L with
  | nil =>
    intro j a ks le hdec
    exact ⟨ks, by simp [unsealLoop, lastFailIdx]⟩
  | cons hd tl ih =>
    intro j a ks le hdec
    cases hdd : decodeKeyStrict hd with
    | none => exact absurd hdd (hdec hd (by simp))
    | some bs =>
      cases hs : env.subs j with
      | exn =>
        obtain ⟨ks', hks'⟩ := ih (j + 1) (a + 1) ks (some (msgSubmitRaised j))
          (fun s hmem => hdec s (by simp [hmem]))
        refine ⟨ks', ?_⟩
        simp only [unsealLoop, hdd, hs]
        rw [hks', show a + 1 + tl.length = a + (hd :: tl).length by simp; omega]
        cases hL : lastFailIdx env (j + 1) tl.length with
        | some i => simp [lastFailIdx, hL]
        | none => simp [lastFailIdx, hL, hs]
      | ok st =>
        have hseal := hno j st hs
        obtain ⟨ks', hks'⟩ := ih (j + 1) (a + 1) (ks + 1) le
          (fun s hmem => hdec s (by simp [hmem]))
        refine ⟨ks', ?_⟩
        simp only [unsealLoop, hdd, hs, hseal]
        rw [if_true, hks',
          show a + 1 + tl.length = a + (hd :: tl).length by simp; omega]
        cases hL : lastFailIdx env (j + 1) tl.length with
        | some i => simp [lastFailIdx, hL]
        | none => simp [lastFailIdx, hL, hs]

/-- C3: with valid preconditions, a sealed instance and no submission
reaching quorum, every one of the first `threshold` keys is attempted no
matter how many individual submissions raise (`attempts = threshold`); the
retained `last_error` is the one of the *last* failing submission; and the
call's outcome is determined solely by the final status query: it raises
only if that query raises, and otherwise returns the final status — never
an exception caused by a rejected submission. -/
theorem unseal_tolerates_submission_failures
    (keys : List String) (threshold : Int) (env : UnsealEnv)
    (hne : keys ≠ []) (h1 : 1 ≤ threshold) (h2 : threshold ≤ (keys.length : Int))
    (hval : ∃ vk, validate_unseal_keys keys = Except.ok vk)
    (hq0 : env.q0 = .ok ⟨true⟩)
    (hdec : ∀ s ∈ keys, decodeKeyStrict s ≠ none)
    (hno : ∀ i st, env.subs i = .ok st → st.sealed = true) :
    (unsealRun keys threshold env).attempts = threshold.toNat ∧
    (unsealRun keys threshold env).lastError =
      (match lastFailIdx env 0 threshold.toNat with
       | some i => some (msgSubmitRaised i)
       | none => none) ∧
    (∀ e, (unsealRun keys threshold env).result = .error e → env.qf = .exn) ∧
    (∀ st, env.qf = .ok st → (unsealRun keys threshold env).result = .ok st) := by
  obtain ⟨vk, hvk⟩ := hval
  have hvkeq := validate_unseal_keys_ok_eq keys vk hvk
  rw [hvkeq] at hvk
  have ht1 : ¬(threshold < 1) := by omega
  have ht2 : ¬((keys.length : Int) < threshold) := by omega
  have hlen : (keys.take threshold.toNat).length = threshold.toNat := by
    rw [List.length_take]
    omega
  obtain ⟨ks', hloop⟩ := unsealLoop_no_early env hno (keys.take threshold.toNat)
    0 0 0 none (fun s hmem => hdec s (List.take_subset _ _ hmem))
  rw [hlen] at hloop
  refine ⟨?_, ?_, ?_, ?_⟩
  · cases hqf : env.qf <;>
      simp [unsealRun, hne, ht1, ht2, hvk, hq0, hloop, hqf, hlen]
  · cases hqf : env.qf <;>
      simp [unsealRun, hne, ht1, ht2, hvk, hq0, hloop, hqf, hlen]
  · intro e he
    cases hqf : env.qf with
    | exn => rfl
    | ok st =>
      simp [unsealRun, hne, ht1, ht2, hvk, hq0, hloop, hqf, hlen] at he
  · intro st hqf
    simp [unsealRun, hne, ht1, ht2, hvk, hq0, hloop, hqf, hlen]

theorem unseal_tolerates_submission_failures_witness :
    (unsealRun [("QUJD"), ("QUJE")] 2 envSubmitFails).attempts = (2 : Int).toNat ∧
    (unsealRun [("QUJD"), ("QUJE")] 2 envSubmitFails).lastError =
      (match lastFailIdx envSubmitFails 0 (2 : Int).toNat with
       | some i => some (msgSubmitRaised i)
       | none => none) ∧
    (∀ e, (unsealRun [("QUJD"), ("QUJE")] 2 envSubmitFails).result = .error e →
      envSubmitFails.qf = .exn) ∧
    (∀ st, envSubmitFails.qf = .ok st →
      (unsealRun [("QUJD"), ("QUJE")] 2 envSubmitFails).result = .ok st) :=
  unseal_tolerates_submission_failures [("QUJD"), ("QUJE")] 2 envSubmitFails
    (by decide) (by decide) (by decide) ⟨[("QUJD"), ("QUJE")], rfl⟩ rfl
    (by decide)
    (fun i st h => by
      simp only [envSubmitFails] at h
      by_cases hi : i = 0
      · rw [if_pos hi] at h
        exact absurd h (by simp)
      · rw [if_neg hi] at h
        injection h with h'
        rw [← h'])

/-! ## C8: log sanitization -/

/-- C8: `SecurityValidator.sanitize_log_data` satisfies the sanitization
specification relation on every nested structure: the value of every mapping
entry whose key case-insensitively contains "key", "secret", "token" or
"password" is replaced by the fixed redaction marker, at every nesting depth
(including mappings inside sequences), and every other leaf passes through
unchanged. -/
theorem sanitize_log_data_matches_spec :
    ∀ d : LogData, SanitizesTo d (sanitize_log_data d) :=
  sanitizesTo_of_sanitize

/-! ## C9: pod with empty containerStatuses is actionable -/

/-- C9: a pod whose status is `Running` with a non-empty IP and an *empty*
`containerStatuses` list passes the all-containers-ready check vacuously, so
when the bound client reports sealed it is actionable: an ADDED/MODIFIED
event upserts it into the monitored set and triggers an unseal attempt. -/
theorem empty_containerStatuses_pod_actionable
    (sel : Option PodSelSpec) (wns : String) (pod : PodObj)
    (mon : List (String × MonPod)) (ev : String) (ip : String)
    (hphase : pod.phase = ("Running")) (hip : pod.podIP = some ip) (hipne : ip ≠ "")
    (hcs : pod.containerStatuses = []) (hsel : matchesSelector sel pod.labels = true)
    (hev : ev = ("ADDED") ∨ ev = ("MODIFIED")) :
    isReadyAndSealed pod (.ok true) = true ∧
    handle_pod_event sel wns (.ok true) ev pod mon =
      (insertA pod.uid ⟨pod.name, wns, 0⟩ mon, true) := by
  have hready : isReadyAndSealed pod (.ok true) = true := by
    simp [isReadyAndSealed, hphase, hip, hipne, hcs]
  refine ⟨hready, ?_⟩
  rcases hev with hev | hev <;> subst hev <;>
    simp [handle_pod_event, hsel, hready]

theorem empty_containerStatuses_pod_actionable_witness :
    isReadyAndSealed podNoContainers (.ok true) = true ∧
    handle_pod_event (some ⟨some [(("app"), ("vault"))]⟩) nsLit (.ok true) ("ADDED")
        podNoContainers [] =
      (insertA podNoContainers.uid ⟨podNoContainers.name, nsLit, 0⟩ [], true) :=
  empty_containerStatuses_pod_actionable (some ⟨some [(("app"), ("vault"))]⟩) nsLit
    podNoContainers [] ("ADDED") ("10.0.0.5") rfl rfl (by decide) rfl (by decide)
    (Or.inl rfl)

/-! ## C1: instance setup always overwrites -/

/-- C1 (code evaluation at the failing input): calling
`setup_vault_client` a second time for the same `(namespace, name)` stores a
*fresh* client object and a *fresh* watcher object under that key — the
previously stored objects are replaced, not preserved.  (The spec requires
create-if-absent semantics; the code unconditionally assigns.) -/
theorem setup_vault_client_overwrites :
    (setup_vault_client dummyStore specInlineHA nsLit nameLit c1State1).2 = .ok () ∧
    lookupA (clientKey nsLit nameLit) c1State1.clients ≠
      lookupA (clientKey nsLit nameLit) c1State2.clients ∧
    lookupA (clientKey nsLit nameLit) c1State1.watchers ≠
      lookupA (clientKey nsLit nameLit) c1State2.watchers :=
  ⟨rfl, by decide, by decide⟩

/-! ## C2: totality of check_and_unseal_vault -/

/-- C2 (counterexample): when no client is registered yet and the spec lacks
`url`, the uncaught `setup_vault_client` call raises and
`check_and_unseal_vault` propagates the exception instead of returning a
`VaultStatus` — the setup step sits *before* the `try` block. -/
theorem check_and_unseal_propagates_setup_failure :
    (check_and_unseal_vault dummyStore venvSealedOkFalse nowLit specNoUrl nsLit nameLit
      emptyRegState).2 = .error msgSpecUrlKeyError := rfl

/-- C2 (amended): whenever the client for `(namespace, name)` is already
registered, `check_and_unseal_vault` returns a `VaultStatus` on every path:
connectivity failures, key-resolution failures and unseal failures are all
caught and folded into the status's `error` field.  (Without a registered
client, a failure inside `setup_vault_client` still propagates — see the
counterexample.) -/
theorem check_and_unseal_total_when_client_registered
    (store : SecretStore) (venv : VaultEnv) (now : String) (spec : SpecDict)
    (ns name : String) (st : RegState) (c : VaultClientObj)
    (hc : lookupA (clientKey ns name) st.clients = some c) :
    ∃ vs, (check_and_unseal_vault store venv now spec ns name st).2 = .ok vs := by
  simp only [check_and_unseal_vault, hc, Option.isSome_some, if_true]
  cases venv.isSealedRes with
  | exn => exact ⟨_, rfl⟩
  | ok isS =>
    cases isS with
    | false => exact ⟨_, rfl⟩
    | true =>
      cases hk : get_unseal_keys store spec ns with
      | error e => exact ⟨⟨true, none, now, some e⟩, by simp [hk]⟩
      | ok keys =>
        cases hr : (unsealRun keys (spec.threshold.getD 3) venv.unsealEnv).result with
        | error e => exact ⟨⟨true, none, now, some e⟩, by simp [hk, hr]⟩
        | ok stt =>
          exact ⟨⟨stt.sealed, if stt.sealed then none else some now, now, none⟩,
            by simp [hk, hr]⟩

theorem check_and_unseal_total_when_client_registered_witness :
    ∃ vs, (check_and_unseal_vault dummyStore venvSealedOkFalse nowLit specNoUrl nsLit
      nameLit regWithClient).2 = .ok vs :=
  check_and_unseal_total_when_client_registered dummyStore venvSealedOkFalse nowLit
    specNoUrl nsLit nameLit regWithClient ⟨0, ("http://vault:8200"), false⟩ rfl

/-! ## C7: lastUnsealed semantics -/

/-- C7 (counterexample): with the client already registered and the instance
*already unsealed* — so no seal-to-unseal transition happens in this call —
the returned status still carries `lastUnsealed = now`.  This refutes "if
the instance was already unsealed when checked, lastUnsealed is not newly
set". -/
theorem check_and_unseal_sets_lastUnsealed_without_transition :
    (check_and_unseal_vault dummyStore venvSealedOkFalse nowLit specNoUrl nsLit nameLit
      regWithClient).2 = .ok ⟨false, some nowLit, nowLit, none⟩ ∧
    some nowLit ≠ (none : Option String) :=
  ⟨rfl, by decide⟩

/-- C7 (amended): every `VaultStatus` actually returned by
`check_and_unseal_vault` has `lastChecked = now` and has
`lastUnsealed = now` exactly when its final `sealed` flag is false —
regardless of whether a transition happened in this call; on the
caught-error path `sealed` is true and `lastUnsealed` is `none`. -/
theorem check_and_unseal_lastUnsealed_iff_unsealed
    (store : SecretStore) (venv : VaultEnv) (now : String) (spec : SpecDict)
    (ns name : String) (st : RegState) (vs : VaultStatusRec)
    (h : (check_and_unseal_vault store venv now spec ns name st).2 = .ok vs) :
    vs.lastChecked = now ∧
      vs.lastUnsealed = (if vs.sealed then none else some now) := by
  rcases hpair : (if (lookupA (clientKey ns name) st.clients).isSome
      then (st, Except.ok (() : Unit))
      else setup_vault_client store spec ns name st) with ⟨st1, res⟩
  simp only [check_and_unseal_vault, hpair] at h
  cases res with
  | error e => exact absurd h (by simp)
  | ok u =>
    cases hlc : lookupA (clientKey ns name) st1.clients with
    | none => rw [hlc] at h; exact absurd h (by simp)
    | some c =>
      rw [hlc] at h
      cases hsl : venv.isSealedRes with
      | exn =>
        rw [hsl] at h
        injection h with h2
        subst h2
        exact ⟨rfl, rfl⟩
      | ok isS =>
        rw [hsl] at h
        cases isS with
        | false =>
          injection h with h2
          subst h2
          exact ⟨rfl, rfl⟩
        | true =>
          cases hk : get_unseal_keys store spec ns with
          | error e =>
            rw [hk] at h
            injection h with h2
            subst h2
            exact ⟨rfl, rfl⟩
          | ok keys =>
            rw [hk] at h
            simp only [] at h
            cases hr : (unsealRun keys (spec.threshold.getD 3) venv.unsealEnv).result with
            | error e =>
              rw [hr] at h
              injection h with h2
              subst h2
              exact ⟨rfl, rfl⟩
            | ok stt =>
              rw [hr] at h
              injection h with h2
              subst h2
              exact ⟨rfl, rfl⟩

theorem check_and_unseal_lastUnsealed_iff_unsealed_witness :
    (⟨false, some nowLit, nowLit, none⟩ : VaultStatusRec).lastChecked = nowLit ∧
      (⟨false, some nowLit, nowLit, none⟩ : VaultStatusRec).lastUnsealed =
        (if (⟨false, some nowLit, nowLit, none⟩ : VaultStatusRec).sealed then none
         else some nowLit) :=
  check_and_unseal_lastUnsealed_iff_unsealed dummyStore venvSealedOkFalse nowLit specNoUrl
    nsLit nameLit regWithClient ⟨false, some nowLit, nowLit, none⟩ rfl

/-! ## C10: secretRef specs validate the threshold against an assumed 10 keys -/

/-- C10: `validate_spec` consults no secret store (its signature takes none):
for a spec whose key source is a `secretRef` it sets the assumed key count to
`MAX_UNSEAL_KEYS = 10`, so *every* threshold in `[1, 10]` is accepted
regardless of the referenced secret's real contents, and an absent threshold
defaults to `min 3 10 = 3`. -/
theorem validate_spec_secretRef_assumes_max_keys
    (s : SpecDict) (u cu nm vnm : String) (ref : SecretRefSpec)
    (hu : s.url = some u) (hvu : validate_url u = .ok cu)
    (huk : s.unsealKeys = some ⟨none, some ref⟩)
    (hrn : ref.name = some nm) (hrk : ref.key = none) (hrns : ref.nspace = none)
    (hvn : validate_kubernetes_name nm .secretName = .ok vnm)
    (hns : s.nspace = none) (hint : s.reconcileInterval = none)
    (hps : s.podSelector = none) :
    (∀ t : Int, s.threshold = some t → 1 ≤ t → t ≤ 10 →
      validate_spec s = .ok ⟨cu, .secretRef vnm ("unseal-keys") none, ("default"), t,
        s.haEnabled.getD false, s.tlsSkipVerify.getD false, ("30s"), none⟩) ∧
    (s.threshold = none →
      validate_spec s = .ok ⟨cu, .secretRef vnm ("unseal-keys") none, ("default"), 3,
        s.haEnabled.getD false, s.tlsSkipVerify.getD false, ("30s"), none⟩) := by
  have hkv : validate_secret_key (("unseal-keys" : String)) = .ok ("unseal-keys") := rfl
  have hi30 : intervalOk (("30s" : String)) = true := rfl
  have hmin : min (3 : Int) 10 = 3 := rfl
  constructor
  · intro t ht h1 h10
    have hvt : validate_threshold t 10 = .ok t := by
      unfold validate_threshold
      rw [if_neg (by omega), if_neg (by omega), if_neg (by omega)]
    simp [validate_spec, hu, hvu, huk, hrn, hrk, hrns, hvn, hns, hint, hps, ht, hvt,
      hkv, hi30]
  · intro ht
    simp [validate_spec, hu, hvu, huk, hrn, hrk, hrns, hvn, hns, hint, hps, ht,
      hkv, hi30, hmin]

theorem validate_spec_secretRef_assumes_max_keys_witness :
    validate_spec sampleSecretRefSpec =
      .ok ⟨("https://vault.example.com:8200"),
        .secretRef ("vault-keys") ("unseal-keys") none, ("default"), 7,
        sampleSecretRefSpec.haEnabled.getD false,
        sampleSecretRefSpec.tlsSkipVerify.getD false, ("30s"), none⟩ :=
  (validate_spec_secretRef_assumes_max_keys sampleSecretRefSpec
    ("https://vault.example.com:8200") ("https://vault.example.com:8200")
    ("vault-keys") ("vault-keys")
    { name := some ("vault-keys"), key := none, nspace := none }
    rfl rfl rfl rfl rfl rfl rfl rfl rfl rfl).1 7 rfl (by decide) (by decide)
